import Mathlib

/-!
Verification of the GPUMD cavity-dynamics subsystem (src/cavity/cavity.cu).

The C++/CUDA code is shallowly embedded over exact rational arithmetic
(`ℚ` stands for the C `double`; every arithmetic step of the source is
mirrored exactly, so equalities proved here are the exact-arithmetic
content of the source computations).  Calls to the C library functions
`cos`/`sin` are modelled by explicit function parameters `cosf sinf :
ℚ → ℚ`, since the embedded properties are algebraic identities in the
sampled trigonometric values.  GPU buffers are functions `ℕ → ℚ`
mutated through `Function.update`, and `for` loops are `List.foldl`
over `List.range`, matching the iteration order of the source.
-/

namespace GpumdCavity

/-- Source constant `BOHR_IN_ANGSTROM = 0.529177249` (cavity.cu line 32). -/
def BOHR_IN_ANGSTROM : ℚ := 529177249 / 1000000000

/-! ## Oscillator state (`Cavity` scalar members)

The scalar cavity state mutated by `Cavity::initialize`,
`Cavity::step_cavity`, `Cavity::canonical_position` and
`Cavity::canonical_momentum`: `q0`, the two running history integrals,
the previous sample time and the previous sampled dipole. -/

structure CavityState where
  q0 : ℚ
  cos_integral : ℚ
  sin_integral : ℚ
  prevtime : ℚ
  prevdipole : Fin 3 → ℚ

/-- `Cavity::step_cavity` (cavity.cu lines 811-834): trapezoidal update of
the two history integrals followed by `prevtime`/`prevdipole` bookkeeping.
`cpu_dipole` is the current `cpu_dipole_` vector; `0.5` in the source is
the exact rational `1/2`. -/
def step_cavity (cosf sinf : ℚ → ℚ) (coupling_strength cavity_frequency : ℚ)
    (cpu_dipole : Fin 3 → ℚ) (time : ℚ) (s : CavityState) : CavityState :=
  let dt := time - s.prevtime
  let prevlmu := coupling_strength * s.prevdipole 2
  let lmu := coupling_strength * cpu_dipole 2
  ⟨s.q0,
   s.cos_integral + (1/2) * dt * cosf (cavity_frequency * s.prevtime) * prevlmu
                  + (1/2) * dt * cosf (cavity_frequency * time) * lmu,
   s.sin_integral + (1/2) * dt * sinf (cavity_frequency * s.prevtime) * prevlmu
                  + (1/2) * dt * sinf (cavity_frequency * time) * lmu,
   time,
   cpu_dipole⟩

/-- `Cavity::canonical_position` (cavity.cu lines 706-729):
`q = sin(phase)*cos_integral - cos(phase)*sin_integral + q0*cos(phase)`
with `phase = cavity_frequency * time`. -/
def canonical_position (cosf sinf : ℚ → ℚ) (cavity_frequency : ℚ)
    (s : CavityState) (time : ℚ) : ℚ :=
  let phase := cavity_frequency * time
  sinf phase * s.cos_integral - cosf phase * s.sin_integral + s.q0 * cosf phase

/-- `Cavity::canonical_momentum` (cavity.cu lines 731-754):
`p = cavity_frequency * (cos(phase)*cos_integral + sin(phase)*sin_integral - q0*sin(phase))`
with `phase = cavity_frequency * time`. -/
def canonical_momentum (cosf sinf : ℚ → ℚ) (cavity_frequency : ℚ)
    (s : CavityState) (time : ℚ) : ℚ :=
  let phase := cavity_frequency * time
  cavity_frequency * (cosf phase * s.cos_integral + sinf phase * s.sin_integral
    - s.q0 * sinf phase)

/-- The oscillator-state part of `Cavity::initialize` (cavity.cu lines
356-370): after the first dipole evaluation at time 0 produced
`cpu_dipole`, set `q0 = coupling_strength * cpu_dipole_[2] / cavity_frequency`,
zero both integrals, set `prevtime = 0` and copy `cpu_dipole_` into
`prevdipole`. -/
def cavity_init (coupling_strength cavity_frequency : ℚ)
    (cpu_dipole : Fin 3 → ℚ) : CavityState :=
  ⟨coupling_strength * cpu_dipole 2 / cavity_frequency, 0, 0, 0, cpu_dipole⟩

/-- The numeric validation `Cavity::parse` applies to the cavity-frequency
parameter (cavity.cu lines 248-253): after `is_valid_real` succeeds, the
value is rejected exactly when `cavity_frequency < 0.0`. -/
def cavity_frequency_accepted (cavity_frequency : ℚ) : Bool :=
  !decide (cavity_frequency < 0)

/-- Driver for the uniform-step scenario of the spec: starting from a
state `s`, perform `k` calls of `step_cavity` at the times
`1*dt, 2*dt, ..., k*dt`. -/
def uniform_cavity_steps (cosf sinf : ℚ → ℚ) (coupling_strength cavity_frequency : ℚ)
    (cpu_dipole : Fin 3 → ℚ) (dt : ℚ) : ℕ → CavityState → CavityState
  | 0, s => s
  | k + 1, s =>
      step_cavity cosf sinf coupling_strength cavity_frequency cpu_dipole
        (((k : ℚ) + 1) * dt)
        (uniform_cavity_steps cosf sinf coupling_strength cavity_frequency cpu_dipole dt k s)

/-! ## The two-phase parallel reductions (`sum_dipole`, `get_center_of_mass`)

Both kernels (cavity.cu lines 34-75 and 78-125) run one block of 1024
threads per component: thread `tid` first accumulates a strided partial
sum over the atoms `tid, tid + 1024, tid + 2*1024, ...`, then the block
reduces the 1024 partials by halving the active range
(`offset = 512, 256, ..., 1`; the source splits this loop into a
`__syncthreads` part down to 64 and a `__syncwarp` part from 32 down,
with identical data flow), and thread 0 writes out `s_d[0]`. -/

/-- `number_of_atoms_per_thread = (N - 1) / 1024 + 1` (cavity.cu lines
500, 512), the `number_of_patches` kernel argument.  For `N = 0` the C
expression `(0 - 1) / 1024 + 1` on `int` is also `1`, like the
truncated natural subtraction here. -/
def number_of_patches (N : ℕ) : ℕ := (N - 1) / 1024 + 1

/-- Phase 1 of the reduction: the strided partial sum of thread `tid`
(`for patch ...: if atomIdx < N: d += v[atomIdx]`). `v` is the summand
as a function of the atom index: `g_virial_per_atom[componentIdx + atomIdx]`
for `sum_dipole`, `g_mass_per_atom[atomIdx] * g_position_per_atom[componentIdx + atomIdx]`
for `get_center_of_mass`. -/
def thread_partial_sum (N : ℕ) (v : ℕ → ℚ) (tid : ℕ) : ℚ :=
  (List.range (number_of_patches N)).foldl
    (fun d patch => if tid + patch * 1024 < N then d + v (tid + patch * 1024) else d) 0

/-- One tree-reduction round at a given `offset`:
`if (tid < offset) s_d[tid] += s_d[tid + offset]`. -/
def block_reduce_step (offset : ℕ) (s : ℕ → ℚ) : ℕ → ℚ :=
  fun tid => if tid < offset then s tid + s (tid + offset) else s tid

/-- The sequence of offsets of the in-block tree reduction for
`blockDim.x = 1024`: the `__syncthreads` loop visits 512, 256, 128, 64
and the `__syncwarp` loop visits 32, 16, 8, 4, 2, 1. -/
def reduce_offsets : List ℕ := [512, 256, 128, 64, 32, 16, 8, 4, 2, 1]

/-- Phase 2 of the reduction: all tree-reduction rounds in order. -/
def block_reduce (s : ℕ → ℚ) : ℕ → ℚ :=
  reduce_offsets.foldl (fun t offset => block_reduce_step offset t) s

/-- The `sum_dipole` kernel (cavity.cu lines 34-75) for block `bid`
(dipole component): the value written to `g_dipole[bid]`, summing
`g_virial_per_atom[bid * N + atomIdx]`. -/
def sum_dipole (N : ℕ) (virial : ℕ → ℚ) (bid : ℕ) : ℚ :=
  block_reduce (thread_partial_sum N (fun j => virial (bid * N + j))) 0

/-- The `get_center_of_mass` kernel (cavity.cu lines 78-125) for block
`bid` (Cartesian component): the value written to
`g_center_of_mass[bid]`, namely the reduced sum of
`g_mass_per_atom[atomIdx] * g_position_per_atom[bid * N + atomIdx]`
divided by `total_mass`. -/
def get_center_of_mass (N : ℕ) (total_mass : ℚ) (mass pos : ℕ → ℚ) (bid : ℕ) : ℚ :=
  block_reduce (thread_partial_sum N (fun j => mass j * pos (bid * N + j))) 0 / total_mass

/-- Straightforward sequential left-to-right accumulation of `v 0, ..., v (N-1)`,
the reference the spec compares the parallel reductions against. -/
def seq_sum (N : ℕ) (v : ℕ → ℚ) : ℚ :=
  (List.range N).foldl (fun acc j => acc + v j) 0

/-! ## Dipole assembly (`Cavity::compute_dipole_and_jacobian`, `Cavity::initialize`) -/

/-- The total mass `mass_` accumulated on the CPU in `Cavity::initialize`
(cavity.cu lines 327-332): a sequential sum of the per-atom masses. -/
def mass_total (N : ℕ) (cpu_mass : ℕ → ℚ) : ℚ :=
  (List.range N).foldl (fun m i => m + cpu_mass i) 0

/-- `Cavity::_get_center_of_mass` (cavity.cu lines 510-521): launches
`get_center_of_mass` with `total_mass = mass_`; there is no guard on
`N` or `mass_` anywhere on this path. -/
def cavity_center_of_mass (N : ℕ) (cpu_mass pos : ℕ → ℚ) (bid : ℕ) : ℚ :=
  get_center_of_mass N (mass_total N cpu_mass) cpu_mass pos bid

/-- Component `i` of `cpu_dipole_` as computed by
`Cavity::compute_dipole_and_jacobian` (cavity.cu lines 400-414): the
`sum_dipole` reduction of the per-atom dipole contributions (stored by
the potential in the first `3 N` entries of `virial_per_atom`),
multiplied by `BOHR_IN_ANGSTROM`, plus `charge` times the
center-of-mass component. -/
def compute_dipole (N : ℕ) (virial cpu_mass pos : ℕ → ℚ) (charge : ℤ) (i : ℕ) : ℚ :=
  sum_dipole N virial i * BOHR_IN_ANGSTROM
    + (charge : ℚ) * cavity_center_of_mass N cpu_mass pos i

/-! ## Force coupler (`Cavity::cavity_force`, `apply_cavity_force`)

Per-atom buffers are laid out as three axis blocks of length `N`
(`x`-block, `y`-block, `z`-block), so atom `j`, axis `a` lives at the
flat index `j + a * N`. -/

/-- The zeroing loop at the top of `Cavity::cavity_force` (cavity.cu
lines 789-791): `cpu_cavity_force_[i] = 0.0` for all `i < 3 * N`. -/
def set_zero_force (N : ℕ) (buf : ℕ → ℚ) : ℕ → ℚ :=
  (List.range (3 * N)).foldl (fun b i => Function.update b i 0) buf

/-- One iteration of the fill loop of `Cavity::cavity_force` (cavity.cu
lines 799-808): atom `j` receives, on each Cartesian axis `i`, the
factor times the `k = 2` (z) Jacobian component for that axis,
`cpu_dipole_jacobian_[i * N_components + j * values_per_atom + 2]` with
`N_components = 3`, `values_per_atom = 9`. -/
def cavity_force_step (N : ℕ) (cav_factor coupling_strength : ℚ) (jac : ℕ → ℚ)
    (b : ℕ → ℚ) (j : ℕ) : ℕ → ℚ :=
  let b0 := Function.update b j
    (cav_factor * coupling_strength * jac (0 * 3 + j * 9 + 2))
  let b1 := Function.update b0 (j + N)
    (cav_factor * coupling_strength * jac (1 * 3 + j * 9 + 2))
  Function.update b1 (j + 2 * N)
    (cav_factor * coupling_strength * jac (2 * 3 + j * 9 + 2))

/-- `Cavity::cavity_force` (cavity.cu lines 778-809): zero the
`cpu_cavity_force_` buffer, compute
`cav_factor = cavity_frequency * q - coupling_strength * cpu_dipole_[2]`,
then fill the three axis blocks per atom. -/
def cavity_force (N : ℕ) (coupling_strength cavity_frequency q : ℚ)
    (cpu_dipole : Fin 3 → ℚ) (jac buf : ℕ → ℚ) : ℕ → ℚ :=
  (List.range N).foldl
    (cavity_force_step N (cavity_frequency * q - coupling_strength * cpu_dipole 2)
      coupling_strength jac)
    (set_zero_force N buf)

/-- One thread of the `apply_cavity_force` kernel (cavity.cu lines
160-173): thread `n1 < N` adds the cavity force onto the existing force
at `n1`, `n1 + N` and `n1 + 2N` (`g_force[...] += g_cav_force[...]`). -/
def apply_cavity_force_step (N : ℕ) (g_cav_force : ℕ → ℚ) (b : ℕ → ℚ) (n1 : ℕ) : ℕ → ℚ :=
  let b0 := Function.update b n1 (b n1 + g_cav_force n1)
  let b1 := Function.update b0 (n1 + N) (b0 (n1 + N) + g_cav_force (n1 + N))
  Function.update b1 (n1 + 2 * N) (b1 (n1 + 2 * N) + g_cav_force (n1 + 2 * N))

/-- The `apply_cavity_force` kernel over all `N` threads, acting on the
outer simulation's `force_per_atom` buffer. -/
def apply_cavity_force (N : ℕ) (g_force g_cav_force : ℕ → ℚ) : ℕ → ℚ :=
  (List.range N).foldl (apply_cavity_force_step N g_cav_force) g_force

/-! ## The finite-difference Jacobian (`Cavity::get_dipole_jacobian`) -/

/-- Finite-difference coefficient for the 2h samples, `c0 = -1.0 / 12.0`
(cavity.cu line 580). -/
def fd_c0 : ℚ := -1 / 12

/-- Finite-difference coefficient for the h samples, `c1 = 2.0 / 3.0`
(cavity.cu line 581). -/
def fd_c1 : ℚ := 2 / 3

/-- Modelled from the spec: the documented finite-difference combination
step of `get_dipole_jacobian` — the contract stated by the function's
doc comment (cavity.cu lines 530-539), present only as commented-out
code at cavity.cu lines 680-689: each Jacobian entry is
`[c0*mu(+2h) + c1*mu(+h) - c1*mu(-h) - c0*mu(-2h)] / h` applied to the
unit-converted, charge-and-center-of-mass-corrected dipole samples. -/
def central_difference_entry (displacement charge
    mu_f2 mu_f1 mu_b1 mu_b2 com_f2 com_f1 com_b1 com_b2 : ℚ) : ℚ :=
  (fd_c0 * (mu_f2 * BOHR_IN_ANGSTROM + charge * com_f2)
    + fd_c1 * (mu_f1 * BOHR_IN_ANGSTROM + charge * com_f1)
    - fd_c1 * (mu_b1 * BOHR_IN_ANGSTROM + charge * com_b1)
    - fd_c0 * (mu_b2 * BOHR_IN_ANGSTROM + charge * com_b2)) * (1 / displacement)

/-- Step 3 of `Cavity::get_dipole_jacobian` as executed (cavity.cu lines
653-703): for every axis `i`, atom `j` and component `k` the loop stores
the constant `1.0` into `cpu_dipole_jacobian_[i * 3 + j * 9 + k]`
(line 696).  The center-of-mass bookkeeping inside the loop mutates only
local temporaries that are reset at the end of each iteration and never
reach the stored value. -/
def get_dipole_jacobian_combine (N : ℕ) (jac0 : ℕ → ℚ) : ℕ → ℚ :=
  (List.range 3).foldl (fun bi i =>
    (List.range N).foldl (fun bj j =>
      (List.range 3).foldl (fun b k =>
        Function.update b (i * 3 + j * 9 + k) 1) bj) bi) jac0

/-- The `shifts` vector of step 1 of `Cavity::get_dipole_jacobian`
(cavity.cu lines 586-591): `h, 2h, -h, -2h`. -/
def shifts (displacement : ℚ) : ℕ → ℚ
  | 0 => displacement
  | 1 => 2 * displacement
  | 2 => -1 * displacement
  | _ => -2 * displacement

/-- Step 1 of `Cavity::get_dipole_jacobian` (cavity.cu lines 594-625):
the triple loop over axis `i`, atom `j` and stencil point `k` that fills
`atom_cavity.cpu_position_per_atom`.  For the replica
`copy_index = values_per_direction * i + j * 4 + k`
(`values_per_direction = 4 * N`) it writes all `3N` reference
coordinates starting at the flat base `copy_index * N` — exactly as the
source indexes the buffer — and then adds `shifts[k]` at the flat index
`copy_index + displaced_index`, `displaced_index = N * i + j`. -/
def build_replica_positions (N : ℕ) (displacement : ℚ) (refpos buf0 : ℕ → ℚ) : ℕ → ℚ :=
  (List.range 3).foldl (fun bufi i =>
    (List.range N).foldl (fun bufj j =>
      (List.range 4).foldl (fun buf k =>
        let copy_index := 4 * N * i + j * 4 + k
        let displaced_index := N * i + j
        let copied := (List.range (3 * N)).foldl
          (fun bb l => Function.update bb (copy_index * N + l) (refpos l)) buf
        Function.update copied (copy_index + displaced_index)
          (copied (copy_index + displaced_index) + shifts displacement k)) bufj) bufi) buf0

/-- The companion `cpu_system_index` writes of step 1 (cavity.cu lines
618-620): each of the `N` atoms of replica `copy_index` is tagged with
`copy_index`. -/
def build_replica_system_index (N : ℕ) (buf0 : ℕ → ℕ) : ℕ → ℕ :=
  (List.range 3).foldl (fun bufi i =>
    (List.range N).foldl (fun bufj j =>
      (List.range 4).foldl (fun buf k =>
        let copy_index := 4 * N * i + j * 4 + k
        (List.range N).foldl
          (fun bb l => Function.update bb (copy_index * N + l) copy_index) buf) bufj) bufi) buf0

/-- A concrete one-atom reference configuration for exercising the batch
construction: position `(0, 10, 20)`. -/
def ex_refpos : ℕ → ℚ
  | 0 => 0
  | 1 => 10
  | _ => 20

end GpumdCavity

namespace GpumdCavity

/-! ## Reduction lemmas -/

lemma foldl_guarded_add (c : ℕ → Prop) [DecidablePred c] (g : ℕ → ℚ) :
    ∀ (P : ℕ) (a : ℚ),
      (List.range P).foldl (fun d p => if c p then d + g p else d) a
        = a + ∑ p ∈ Finset.range P, if c p then g p else 0 := by
  intro P
  induction P with
  | zero => intro a; simp
  | succ P ih =>
      intro a
      rw [List.range_succ, List.foldl_append, ih, Finset.sum_range_succ]
      by_cases h : c P <;> simp [h] <;> ring

lemma foldl_add (g : ℕ → ℚ) :
    ∀ (P : ℕ) (a : ℚ),
      (List.range P).foldl (fun d p => d + g p) a = a + ∑ p ∈ Finset.range P, g p := by
  intro P
  induction P with
  | zero => intro a; simp
  | succ P ih =>
      intro a
      rw [List.range_succ, List.foldl_append, ih, Finset.sum_range_succ]
      simp [add_assoc]

lemma seq_sum_eq (N : ℕ) (v : ℕ → ℚ) :
    seq_sum N v = ∑ j ∈ Finset.range N, v j := by
  rw [seq_sum, foldl_add, zero_add]

lemma mass_total_eq (N : ℕ) (m : ℕ → ℚ) :
    mass_total N m = ∑ j ∈ Finset.range N, m j := by
  rw [mass_total, foldl_add, zero_add]

lemma thread_partial_sum_eq (N : ℕ) (v : ℕ → ℚ) (tid : ℕ) :
    thread_partial_sum N v tid
      = ∑ p ∈ Finset.range (number_of_patches N),
          if tid + p * 1024 < N then v (tid + p * 1024) else 0 := by
  rw [thread_partial_sum, foldl_guarded_add, zero_add]

lemma block_reduce_step_sum (offset : ℕ) (s : ℕ → ℚ) :
    ∑ t ∈ Finset.range offset, block_reduce_step offset s t
      = ∑ t ∈ Finset.range (offset + offset), s t := by
  have h : ∀ t ∈ Finset.range offset,
      block_reduce_step offset s t = s t + s (t + offset) := by
    intro t ht
    simp only [block_reduce_step]
    rw [if_pos (Finset.mem_range.mp ht)]
  rw [Finset.sum_congr rfl h, Finset.sum_add_distrib, Finset.sum_range_add]
  congr 1
  exact Finset.sum_congr rfl fun t _ => by rw [add_comm]

lemma block_reduce_at_zero (s : ℕ → ℚ) :
    block_reduce s 0 = ∑ t ∈ Finset.range 1024, s t := by
  have e1 : ∀ g : ℕ → ℚ, block_reduce_step 1 g 0 = ∑ t ∈ Finset.range 2, g t := by
    intro g
    have h := block_reduce_step_sum 1 g
    rw [Finset.sum_range_one] at h
    rw [h]
  rw [block_reduce, reduce_offsets]
  simp only [List.foldl]
  rw [e1, block_reduce_step_sum]
  norm_num
  rw [block_reduce_step_sum]
  norm_num
  rw [block_reduce_step_sum]
  norm_num
  rw [block_reduce_step_sum]
  norm_num
  rw [block_reduce_step_sum]
  norm_num
  rw [block_reduce_step_sum]
  norm_num
  rw [block_reduce_step_sum]
  norm_num
  rw [block_reduce_step_sum]
  norm_num
  rw [block_reduce_step_sum]

lemma strided_sum_eq (f : ℕ → ℚ) :
    ∀ P : ℕ,
      ∑ p ∈ Finset.range P, ∑ t ∈ Finset.range 1024, f (t + p * 1024)
        = ∑ j ∈ Finset.range (P * 1024), f j := by
  intro P
  induction P with
  | zero => simp
  | succ P ih =>
      rw [Finset.sum_range_succ, ih]
      have h : (P + 1) * 1024 = P * 1024 + 1024 := by ring
      have h2 : ∀ t ∈ Finset.range 1024, f (t + P * 1024) = f (P * 1024 + t) :=
        fun t _ => by rw [add_comm]
      rw [h, Finset.sum_range_add, Finset.sum_congr rfl h2]

lemma le_patches_mul (N : ℕ) : N ≤ number_of_patches N * 1024 := by
  rw [number_of_patches]
  have h := Nat.div_add_mod (N - 1) 1024
  have h2 : (N - 1) % 1024 < 1024 := Nat.mod_lt _ (by norm_num)
  omega

/-- The two-phase parallel reduction computes the exact sum of the `N`
summands. -/
lemma parallel_sum_eq (N : ℕ) (v : ℕ → ℚ) :
    block_reduce (thread_partial_sum N v) 0 = ∑ j ∈ Finset.range N, v j := by
  rw [block_reduce_at_zero]
  have h1 : ∑ t ∈ Finset.range 1024, thread_partial_sum N v t
      = ∑ p ∈ Finset.range (number_of_patches N), ∑ t ∈ Finset.range 1024,
          if t + p * 1024 < N then v (t + p * 1024) else 0 := by
    rw [Finset.sum_comm]
    exact Finset.sum_congr rfl fun t _ => thread_partial_sum_eq N v t
  rw [h1, strided_sum_eq (fun j => if j < N then v j else 0) (number_of_patches N)]
  rw [← Finset.sum_subset (Finset.range_subset.mpr (le_patches_mul N))
    (fun j _ hj => if_neg (by simpa using fun h => hj (Finset.mem_range.mpr h)))]
  exact Finset.sum_congr rfl fun j hj => if_pos (Finset.mem_range.mp hj)

/-! ## Loop lemmas for the force coupler -/

lemma foldl_range_succ {α : Type} (f : α → ℕ → α) (a : α) (n : ℕ) :
    (List.range (n + 1)).foldl f a = f ((List.range n).foldl f a) n := by
  rw [List.range_succ, List.foldl_append, List.foldl_cons, List.foldl_nil]

lemma set_zero_loop (buf : ℕ → ℚ) :
    ∀ (k idx : ℕ),
      (List.range k).foldl (fun b i => Function.update b i (0 : ℚ)) buf idx
        = if idx < k then 0 else buf idx := by
  intro k
  induction k with
  | zero => intro idx; simp
  | succ k ih =>
      intro idx
      rw [foldl_range_succ]
      rcases eq_or_ne idx k with h | h
      · subst h
        simp [Function.update_apply]
      · rw [Function.update_apply, if_neg h, ih]
        by_cases h2 : idx < k
        · rw [if_pos h2, if_pos (by omega)]
        · rw [if_neg h2, if_neg (by omega)]

lemma set_zero_force_eq (N : ℕ) (buf : ℕ → ℚ) (idx : ℕ) :
    set_zero_force N buf idx = if idx < 3 * N then 0 else buf idx := by
  rw [set_zero_force, set_zero_loop]

lemma apply_loop_inv (N : ℕ) (c g : ℕ → ℚ) :
    ∀ k : ℕ, k ≤ N → ∀ idx : ℕ,
      (List.range k).foldl (apply_cavity_force_step N c) g idx
        = if idx < k ∨ (N ≤ idx ∧ idx < N + k) ∨ (2 * N ≤ idx ∧ idx < 2 * N + k)
          then g idx + c idx else g idx := by
  intro k
  induction k with
  | zero =>
      intro _ idx
      rw [List.range_zero, List.foldl_nil, if_neg (by omega)]
  | succ k ih =>
      intro hk idx
      have hB := ih (by omega)
      rw [foldl_range_succ]
      generalize hg : (List.range k).foldl (apply_cavity_force_step N c) g = B at hB ⊢
      simp only [apply_cavity_force_step, Function.update_apply]
      simp only [hB]
      split_ifs <;> (try subst_vars) <;> first | rfl | (exfalso; omega)

lemma apply_cavity_force_eq (N : ℕ) (g c : ℕ → ℚ) (idx : ℕ) (h : idx < 3 * N) :
    apply_cavity_force N g c idx = g idx + c idx := by
  rw [apply_cavity_force, apply_loop_inv N c g N le_rfl idx, if_pos (by omega)]

lemma cavity_force_loop_inv (N : ℕ) (cf cs : ℚ) (jac z : ℕ → ℚ) :
    ∀ k : ℕ, k ≤ N → ∀ idx : ℕ,
      (List.range k).foldl (cavity_force_step N cf cs jac) z idx
        = if idx < k then cf * cs * jac (0 * 3 + idx * 9 + 2)
          else if N ≤ idx ∧ idx < N + k then cf * cs * jac (1 * 3 + (idx - N) * 9 + 2)
          else if 2 * N ≤ idx ∧ idx < 2 * N + k then cf * cs * jac (2 * 3 + (idx - 2 * N) * 9 + 2)
          else z idx := by
  intro k
  induction k with
  | zero =>
      intro _ idx
      rw [List.range_zero, List.foldl_nil, if_neg (by omega), if_neg (by omega),
        if_neg (by omega)]
  | succ k ih =>
      intro hk idx
      have hB := ih (by omega)
      rw [foldl_range_succ]
      generalize hg : (List.range k).foldl (cavity_force_step N cf cs jac) z = B at hB ⊢
      simp only [cavity_force_step, Function.update_apply]
      simp only [hB]
      split_ifs <;> (try subst_vars) <;>
        first
          | rfl
          | (exfalso; omega)
          | (congr 2; omega)

lemma cavity_force_eq (N : ℕ) (cs cfreq q : ℚ) (dip : Fin 3 → ℚ) (jac buf : ℕ → ℚ)
    (j : ℕ) (hj : j < N) :
    cavity_force N cs cfreq q dip jac buf j
        = (cfreq * q - cs * dip 2) * cs * jac (0 * 3 + j * 9 + 2)
      ∧ cavity_force N cs cfreq q dip jac buf (j + N)
        = (cfreq * q - cs * dip 2) * cs * jac (1 * 3 + j * 9 + 2)
      ∧ cavity_force N cs cfreq q dip jac buf (j + 2 * N)
        = (cfreq * q - cs * dip 2) * cs * jac (2 * 3 + j * 9 + 2) := by
  rw [cavity_force]
  rw [cavity_force_loop_inv N _ cs jac _ N le_rfl j,
    cavity_force_loop_inv N _ cs jac _ N le_rfl (j + N),
    cavity_force_loop_inv N _ cs jac _ N le_rfl (j + 2 * N)]
  refine ⟨by rw [if_pos hj], ?_, ?_⟩
  · rw [if_neg (by omega), if_pos (by omega)]
    congr 2
    omega
  · rw [if_neg (by omega), if_neg (by omega), if_pos (by omega)]
    congr 2
    omega

end GpumdCavity

namespace GpumdCavity

/-! ## Lemmas about the oscillator -/

lemma uniform_cavity_steps_closed_form (cosf sinf : ℚ → ℚ)
    (lam omega : ℚ) (dip : Fin 3 → ℚ) (dt q0v : ℚ) (k : ℕ) :
    uniform_cavity_steps cosf sinf lam omega dip dt k ⟨q0v, 0, 0, 0, dip⟩ =
      ⟨q0v,
       ∑ n ∈ Finset.range k,
         (1/2) * dt * (cosf (omega * ((n : ℚ) * dt)) + cosf (omega * (((n : ℚ) + 1) * dt)))
           * (lam * dip 2),
       ∑ n ∈ Finset.range k,
         (1/2) * dt * (sinf (omega * ((n : ℚ) * dt)) + sinf (omega * (((n : ℚ) + 1) * dt)))
           * (lam * dip 2),
       (k : ℚ) * dt, dip⟩ := by
  induction k with
  | zero => simp [uniform_cavity_steps]
  | succ k ih =>
      rw [uniform_cavity_steps, ih, step_cavity]
      refine CavityState.mk.injEq .. ▸ ⟨rfl, ?_, ?_, by push_cast; ring, rfl⟩ <;>
      · simp only [Finset.sum_range_succ]
        push_cast
        ring

end GpumdCavity

namespace GpumdCavity

/-! ## Claim theorems -/

/-- Claim C3: one call of `step_cavity` at time `t` adds exactly
`0.5*(t - prevtime)*(cos(omega*prevtime)*lambda*mu_z(prevtime) + cos(omega*t)*lambda*mu_z(t))`
to `cos_integral`, the analogous sine increment to `sin_integral`, and then
sets `prevtime = t` and `prevdipole` to the current dipole; and for a
constant coupling-dipole value and `k` uniform steps of size `dt` starting
from a freshly initialized state, the integrals equal the trapezoidal-rule
closed form. -/
theorem claim_C3 (cosf sinf : ℚ → ℚ) (lam omega : ℚ) (dip : Fin 3 → ℚ)
    (t : ℚ) (s : CavityState) (dt q0v : ℚ) (k : ℕ) :
    ((step_cavity cosf sinf lam omega dip t s).cos_integral =
        s.cos_integral + (1/2) * (t - s.prevtime) *
          (cosf (omega * s.prevtime) * (lam * s.prevdipole 2)
            + cosf (omega * t) * (lam * dip 2))
      ∧ (step_cavity cosf sinf lam omega dip t s).sin_integral =
        s.sin_integral + (1/2) * (t - s.prevtime) *
          (sinf (omega * s.prevtime) * (lam * s.prevdipole 2)
            + sinf (omega * t) * (lam * dip 2))
      ∧ (step_cavity cosf sinf lam omega dip t s).prevtime = t
      ∧ (step_cavity cosf sinf lam omega dip t s).prevdipole = dip)
    ∧ (uniform_cavity_steps cosf sinf lam omega dip dt k ⟨q0v, 0, 0, 0, dip⟩).cos_integral =
        ∑ n ∈ Finset.range k,
          (1/2) * dt * (cosf (omega * ((n : ℚ) * dt)) + cosf (omega * (((n : ℚ) + 1) * dt)))
            * (lam * dip 2)
    ∧ (uniform_cavity_steps cosf sinf lam omega dip dt k ⟨q0v, 0, 0, 0, dip⟩).sin_integral =
        ∑ n ∈ Finset.range k,
          (1/2) * dt * (sinf (omega * ((n : ℚ) * dt)) + sinf (omega * (((n : ℚ) + 1) * dt)))
            * (lam * dip 2) := by
  refine ⟨⟨?_, ?_, rfl, rfl⟩, ?_, ?_⟩
  · simp only [step_cavity]; ring
  · simp only [step_cavity]; ring
  · rw [uniform_cavity_steps_closed_form]
  · rw [uniform_cavity_steps_closed_form]

/-- Claim C4: `canonical_position` computes
`q = sin(omega*t)*Icos - cos(omega*t)*Isin + q0*cos(omega*t)` and
`canonical_momentum` computes
`p = omega*(cos(omega*t)*Icos + sin(omega*t)*Isin - q0*sin(omega*t))`,
the phase being `omega` times the absolute time `t`. -/
theorem claim_C4 (cosf sinf : ℚ → ℚ) (omega : ℚ) (s : CavityState) (t : ℚ) :
    canonical_position cosf sinf omega s t =
      sinf (omega * t) * s.cos_integral - cosf (omega * t) * s.sin_integral
        + s.q0 * cosf (omega * t)
    ∧ canonical_momentum cosf sinf omega s t =
      omega * (cosf (omega * t) * s.cos_integral + sinf (omega * t) * s.sin_integral
        - s.q0 * sinf (omega * t)) :=
  ⟨rfl, rfl⟩

/-- Claim C7: oscillator initialization sets `q0 = lambda * mu_z(0) / omega`,
resets both history integrals to `0`, sets `prevtime = 0` and stores the
dipole computed at time 0 into `prevdipole`. -/
theorem claim_C7 (lam omega : ℚ) (dip0 : Fin 3 → ℚ) :
    (cavity_init lam omega dip0).q0 = lam * dip0 2 / omega
    ∧ (cavity_init lam omega dip0).cos_integral = 0
    ∧ (cavity_init lam omega dip0).sin_integral = 0
    ∧ (cavity_init lam omega dip0).prevtime = 0
    ∧ (cavity_init lam omega dip0).prevdipole = dip0 :=
  ⟨rfl, rfl, rfl, rfl, rfl⟩

/-- Claim C8: for every atom count `N` and every family of per-atom
summands, the two-phase parallel reduction used by the `sum_dipole` and
`get_center_of_mass` kernels computes exactly the same value as a
straightforward sequential left-to-right accumulation of the same
values. -/
theorem claim_C8 (N : ℕ) (virial mass pos : ℕ → ℚ) (total_mass : ℚ) (bid : ℕ) :
    sum_dipole N virial bid = seq_sum N (fun j => virial (bid * N + j))
    ∧ get_center_of_mass N total_mass mass pos bid
        = seq_sum N (fun j => mass j * pos (bid * N + j)) / total_mass := by
  constructor
  · rw [sum_dipole, parallel_sum_eq, seq_sum_eq]
  · rw [get_center_of_mass, parallel_sum_eq, seq_sum_eq]

/-- Claim C5: the dipole reported by `compute_dipole_and_jacobian`
equals, per component, the sum of the `N` per-atom dipole contributions
multiplied by the Bohr-to-angstrom constant, plus `charge` times the
center of mass of that axis, the center of mass being
`(Σ mass_i * position_i) / (Σ mass_i)`. -/
theorem claim_C5 (N : ℕ) (virial cpu_mass pos : ℕ → ℚ) (charge : ℤ) (i : ℕ) :
    compute_dipole N virial cpu_mass pos charge i
      = (∑ j ∈ Finset.range N, virial (i * N + j)) * BOHR_IN_ANGSTROM
        + (charge : ℚ) *
            ((∑ j ∈ Finset.range N, cpu_mass j * pos (i * N + j))
              / ∑ j ∈ Finset.range N, cpu_mass j) := by
  rw [compute_dipole, sum_dipole, parallel_sum_eq, cavity_center_of_mass,
    get_center_of_mass, parallel_sum_eq, mass_total_eq]

/-- Claim C9: this claim states that a zero atom count or a zero total
mass aborts before the division by the total mass.  The code has no such
guard: `Cavity::_get_center_of_mass` unconditionally divides the reduced
sum by `mass_`, which for `N = 0` (and likewise for all-zero masses) is
`0`; the embedded computation reaches the division with a zero
denominator instead of failing fast (in IEEE arithmetic this is `0/0 = NaN`,
silently propagated). -/
theorem claim_C9 (cpu_mass pos : ℕ → ℚ) (bid : ℕ) :
    mass_total 0 cpu_mass = 0
    ∧ cavity_center_of_mass 0 cpu_mass pos bid
        = block_reduce (thread_partial_sum 0 (fun j => cpu_mass j * pos (bid * 0 + j))) 0 / 0 :=
  ⟨rfl, rfl⟩

/-- Claim C10: the parse-time validation accepts a cavity frequency of
exactly zero (it rejects only negative values of an already-numeric
parameter), yet the initialization formula computes
`q0 = coupling_strength * mu_z / omega` with no guard, so with
`omega = 0` the division by zero is reached. -/
theorem claim_C10 (lam : ℚ) (dip : Fin 3 → ℚ) :
    cavity_frequency_accepted 0 = true
    ∧ (cavity_init lam 0 dip).q0 = lam * dip 2 / 0 :=
  ⟨by decide, rfl⟩

/-- Claim C6: the cavity force on atom `j`, axis `a` equals
`(omega*q - lambda*mu_z) * lambda * jacobian[a*3 + j*9 + 2]` (only the
`k = 2` z-component of the Jacobian enters), and the `apply_cavity_force`
kernel adds the cavity-force buffer onto the existing per-atom force
buffer entrywise (`+=`, not overwrite). -/
theorem claim_C6 (N : ℕ) (lam omega q : ℚ) (dip : Fin 3 → ℚ)
    (jac cavbuf g_force : ℕ → ℚ) (j : ℕ) (hj : j < N) :
    (cavity_force N lam omega q dip jac cavbuf j
        = (omega * q - lam * dip 2) * lam * jac (0 * 3 + j * 9 + 2)
      ∧ cavity_force N lam omega q dip jac cavbuf (j + N)
        = (omega * q - lam * dip 2) * lam * jac (1 * 3 + j * 9 + 2)
      ∧ cavity_force N lam omega q dip jac cavbuf (j + 2 * N)
        = (omega * q - lam * dip 2) * lam * jac (2 * 3 + j * 9 + 2))
    ∧ (apply_cavity_force N g_force cavbuf j = g_force j + cavbuf j
      ∧ apply_cavity_force N g_force cavbuf (j + N)
          = g_force (j + N) + cavbuf (j + N)
      ∧ apply_cavity_force N g_force cavbuf (j + 2 * N)
          = g_force (j + 2 * N) + cavbuf (j + 2 * N)) :=
  ⟨cavity_force_eq N lam omega q dip jac cavbuf j hj,
   apply_cavity_force_eq N g_force cavbuf j (by omega),
   apply_cavity_force_eq N g_force cavbuf (j + N) (by omega),
   apply_cavity_force_eq N g_force cavbuf (j + 2 * N) (by omega)⟩

/-- Witness for C6 at the concrete input `N = 1`, `j = 0`,
`lambda = 2`, `omega = 3`, `q = 5`, `mu = (7,7,7)`, `jacobian = 11`,
cavity-force buffer initially `99`, outer force buffer `4`. -/
theorem claim_C6_witness :
    (0 : ℕ) < 1
    ∧ ((cavity_force 1 2 3 5 (fun _ => 7) (fun _ => 11) (fun _ => 99) 0
          = (3 * 5 - 2 * 7) * 2 * 11
        ∧ cavity_force 1 2 3 5 (fun _ => 7) (fun _ => 11) (fun _ => 99) (0 + 1)
          = (3 * 5 - 2 * 7) * 2 * 11
        ∧ cavity_force 1 2 3 5 (fun _ => 7) (fun _ => 11) (fun _ => 99) (0 + 2 * 1)
          = (3 * 5 - 2 * 7) * 2 * 11)
      ∧ (apply_cavity_force 1 (fun _ => 4) (fun _ => 99) 0 = 4 + 99
        ∧ apply_cavity_force 1 (fun _ => 4) (fun _ => 99) (0 + 1) = 4 + 99
        ∧ apply_cavity_force 1 (fun _ => 4) (fun _ => 99) (0 + 2 * 1) = 4 + 99)) :=
  ⟨by decide,
   claim_C6 1 2 3 5 (fun _ => 7) (fun _ => 11) (fun _ => 99) (fun _ => 4) 0 (by decide)⟩

/-- Claim C1: this claim states that `get_dipole_jacobian` stores the
4-point central-difference combination of the corrected dipoles rather
than a constant placeholder.  The executed code does the opposite: the
combination loop stores the constant `1.0` into every entry (cavity.cu
line 696) while the documented formula survives only as commented-out
code.  At a configuration whose four sampled dipoles (and center-of-mass
corrections) all vanish, the documented central difference is `0`, yet
the stored entry is `1`. -/
theorem claim_C1 :
    get_dipole_jacobian_combine 1 (fun _ => 0) 2 = 1
    ∧ central_difference_entry (1/1000) 0 0 0 0 0 0 0 0 0 = 0
    ∧ get_dipole_jacobian_combine 1 (fun _ => 0) 2
        ≠ central_difference_entry (1/1000) 0 0 0 0 0 0 0 0 0 := by
  have h1 : get_dipole_jacobian_combine 1 (fun _ => 0) 2 = 1 := by
    norm_num [get_dipole_jacobian_combine, List.range_succ]
  have h2 : central_difference_entry (1/1000) 0 0 0 0 0 0 0 0 0 = 0 := by
    norm_num [central_difference_entry, fd_c0, fd_c1]
  refine ⟨h1, h2, ?_⟩
  rw [h1, h2]
  norm_num

/-- Claim C2: this claim states that the batched replica buffer holds
`12*N` replicas in disjoint position ranges, each equal to the reference
positions except for one shifted coordinate.  The executed copy loop
writes the `3N` coordinates of replica `copy_index` at base
`copy_index * N`, so consecutive replica blocks overlap and later
replicas overwrite earlier ones.  Concretely for `N = 1`, reference
position `(0, 10, 20)` and `h = 1/1000`: the cell at flat index 1 —
the y-coordinate of replica 0 under the code's own layout, which the
claim requires to stay at the reference value `10` — ends up holding
`0 + 2h = 1/500`, written by replica 1.  (The integer tags, by contrast,
are written to disjoint ranges: the tag cell of replica 5 holds 5.) -/
theorem claim_C2 :
    build_replica_positions 1 (1/1000) ex_refpos (fun _ => 0) 1 = 1/500
    ∧ build_replica_positions 1 (1/1000) ex_refpos (fun _ => 0) 1 ≠ ex_refpos 1
    ∧ build_replica_system_index 1 (fun _ => 0) 5 = 5 := by
  have h1 : build_replica_positions 1 (1/1000) ex_refpos (fun _ => 0) 1 = 1/500 := by
    norm_num [build_replica_positions, shifts, ex_refpos, List.range_succ]
  refine ⟨h1, ?_, ?_⟩
  · rw [h1, ex_refpos]
    norm_num
  · norm_num [build_replica_system_index, List.range_succ]

end GpumdCavity
